import Mathlib

/-!
Verification of the FastAPI Todo service (`src/FastAPI/main.py`).

The service keeps an in-memory, insertion-ordered list of todo records and
exposes create / list / get / update / delete / toggle / stats operations.
This file shallowly embeds the data model, the pydantic validation rules and
the handler bodies, and proves the specification's claims about them.

Modelling conventions:
* UUIDs are modelled by a `Nat` counter (`nextId`); `datetime.now()` by a
  `Nat` clock that ticks once per operation.  Both only need freshness /
  monotonicity, which the counter supplies.
* Python `str.strip()` is modelled by `pyStrip` over the string's character
  list, using `Char.isWhitespace` for Python's whitespace class.
* `update_todo` copies the fields of `model_dump(exclude_unset=True)` onto the
  stored record with `setattr`, with no validation at assignment time.  An
  explicitly supplied JSON `null` is *set* (not unset), so every mutable field
  of a stored record can end up holding `None` even when its declared type is
  non-optional.  The record type therefore stores `Option`-valued fields, and
  the Python truthiness/equality used on them by the handlers
  (`if todo.completed`, `todo.priority == p`, `not todo.completed`) is
  modelled explicitly (`some true`, `== some p`, `pyNot`).
-/

namespace FastAPITodo

deriving instance DecidableEq for Except

/-- Python's `str.strip()`: drop leading and trailing whitespace characters
(embeds the `v.strip()` calls of `title_must_not_be_empty`). -/
def pyStrip (s : String) : String :=
  ⟨((s.data.dropWhile Char.isWhitespace).reverse.dropWhile Char.isWhitespace).reverse⟩

/-- Python `len` on a string: the number of characters (pydantic's
`min_length` / `max_length` count characters). -/
def pyLen (s : String) : Nat := s.data.length

/-- Python `not x` on an attribute that is `True`, `False` or `None`
(`None` is falsy, so `not None` is `True`). -/
def pyNot : Option Bool → Bool
  | some b => !b
  | none => true

/-- A stored todo record (class `Todo` in `main.py`).  The declared Python
types are `title: str`, `description: str | None`, `priority: int`,
`completed: bool`; the four mutable fields are nevertheless `Option`-valued
here because `update_todo` assigns them with `setattr` without validation, so
an explicit JSON `null` in the update body is stored as-is (see module
comment).  `create_todo` always populates them with `some` values. -/
structure Todo where
  id : Nat
  title : Option String
  description : Option String
  priority : Option Nat
  completed : Option Bool
  createdAt : Nat
  updatedAt : Option Nat
deriving DecidableEq, Repr

/-- The request body of `POST /todos` (`TodoCreate` / `TodoBase`), with
pydantic defaults already applied (`priority=1`, `completed=False`,
`description=None` when omitted). -/
structure TodoCreate where
  title : String
  description : Option String := none
  priority : Nat := 1
  completed : Bool := false
deriving DecidableEq, Repr

/-- The request body of `PUT /todos/{id}` (`TodoUpdate`).  The outer `Option`
is pydantic's set/unset distinction (`model_dump(exclude_unset=True)` keeps
exactly the fields a client explicitly supplied); the inner value is the
supplied JSON value, where `none` is an explicit `null` (all four fields are
declared `| None` so `null` passes validation). -/
structure TodoUpdate where
  title : Option (Option String) := none
  description : Option (Option String) := none
  priority : Option (Option Nat) := none
  completed : Option (Option Bool) := none
deriving DecidableEq, Repr

/-- The error taxonomy the handlers can fail with: pydantic / query
validation errors (HTTP 422) and `TodoNotFoundError` (HTTP 404). -/
inductive ApiError where
  | validation
  | notFound
deriving DecidableEq, Repr

/-- Validation of a `TodoCreate` body, embedding `TodoBase`'s constraints:
`title` has `min_length=1, max_length=200` (checked on the raw value) and the
`title_must_not_be_empty` validator, which rejects whitespace-only titles and
returns the *stripped* title; `description` has `max_length=1000`;
`priority` has `ge=1, le=5`.  Returns the validated model (title stripped). -/
def validateCreate (c : TodoCreate) : Except ApiError TodoCreate :=
  if pyLen c.title < 1 then .error .validation
  else if 200 < pyLen c.title then .error .validation
  else if pyStrip c.title = "" then .error .validation
  else if c.description.any (fun d => 1000 < pyLen d) then .error .validation
  else if c.priority < 1 then .error .validation
  else if 5 < c.priority then .error .validation
  else .ok { c with title := pyStrip c.title }

/-- Validation of a `TodoUpdate` body (`TodoUpdate`'s field constraints).
Each constraint applies only when a (non-`null`) value is supplied; the
validator `title_must_not_be_empty` passes `None` through unchanged and
strips a supplied string (`return v.strip() if v else v`). -/
def validateUpdate (u : TodoUpdate) : Except ApiError TodoUpdate :=
  match u.title with
  | some (some t) =>
    if pyLen t < 1 then .error .validation
    else if 200 < pyLen t then .error .validation
    else if pyStrip t = "" then .error .validation
    else validateUpdateRest { u with title := some (some (pyStrip t)) }
  | _ => validateUpdateRest u
where
  /-- constraints on `description` and `priority` -/
  validateUpdateRest (u : TodoUpdate) : Except ApiError TodoUpdate :=
    if (u.description.join).any (fun d => 1000 < pyLen d) then .error .validation
    else if (u.priority.join).any (fun p => p < 1 || 5 < p) then .error .validation
    else .ok u

/-- The whole application state: the shared `todos_storage` list plus the
modelled id and clock sources. -/
structure AppState where
  todos : List Todo
  nextId : Nat
  now : Nat
deriving DecidableEq, Repr

/-- The empty initial state (`todos_storage: list[Todo] = []`). -/
def initState : AppState := ⟨[], 0, 0⟩

/-- `get_todo_by_id`: first record whose id matches, else
`TodoNotFoundError`. -/
def get_todo_by_id (todos : List Todo) (i : Nat) : Except ApiError Todo :=
  match todos.find? (fun t => t.id == i) with
  | some t => .ok t
  | none => .error .notFound

/-- `GET /todos`: apply the optional `completed` filter, then the optional
`priority` filter (each an exact-match list comprehension over the previous
list), then the Python slice `filtered_todos[skip : skip + limit]`. -/
def get_todos (todos : List Todo) (completed : Option Bool) (priority : Option Nat)
    (limit skip : Nat) : List Todo :=
  let filtered₁ : List Todo := match completed with
    | some c => todos.filter (fun t => t.completed == some c)
    | none => todos
  let filtered₂ : List Todo := match priority with
    | some p => filtered₁.filter (fun t => t.priority == some p)
    | none => filtered₁
  (filtered₂.drop skip).take ((skip + limit) - skip)

/-- `GET /todos/stats`: the response dict in insertion order — totals first,
then `priority_1` … `priority_5` from `for priority in range(1, 6)`.
`if todo.completed` counts records whose `completed` attribute is truthy. -/
def get_todo_stats (todos : List Todo) : List (String × Nat) :=
  let total := todos.length
  let completed := (todos.filter (fun t => t.completed == some true)).length
  let pending := total - completed
  let priority_stats := (List.range' 1 5).map (fun p =>
    ("priority_" ++ toString p, (todos.filter (fun t => t.priority == some p)).length))
  ("total_todos", total) :: ("completed_todos", completed) ::
    ("pending_todos", pending) :: priority_stats

/-- `POST /todos`: validate the body, then build a fresh record
(`Todo(**todo.model_dump())`: new id, `created_at` now, `updated_at = None`)
and append it to the storage. -/
def create_todo (st : AppState) (c : TodoCreate) : Except ApiError Todo × AppState :=
  match validateCreate c with
  | .error e => (.error e, st)
  | .ok c' =>
    let newTodo : Todo :=
      { id := st.nextId, title := some c'.title, description := c'.description,
        priority := some c'.priority, completed := some c'.completed,
        createdAt := st.now, updatedAt := none }
    (.ok newTodo, { st with todos := st.todos ++ [newTodo], nextId := st.nextId + 1 })

/-- Replace the first element satisfying `p` (Python mutates the one object
`get_todo_by_id` returned, leaving its position in the list unchanged). -/
def replaceFirst (l : List Todo) (p : Todo → Bool) (t' : Todo) : List Todo :=
  match l with
  | [] => []
  | x :: xs => if p x then t' :: xs else x :: replaceFirst xs p t'

/-- Copy the explicitly-set fields of a validated update body onto a record
and stamp `updated_at` (`for field, value in update_data.items():
setattr(existing_todo, field, value)` followed by
`existing_todo.updated_at = datetime.now()`). -/
def applyUpdateData (t : Todo) (u : TodoUpdate) (now : Nat) : Todo :=
  { t with
    title := u.title.getD t.title,
    description := u.description.getD t.description,
    priority := u.priority.getD t.priority,
    completed := u.completed.getD t.completed,
    updatedAt := some now }

/-- `PUT /todos/{id}`: the body is validated by pydantic before the handler
runs; the handler looks the record up (404 before any mutation) and then
assigns the supplied fields. -/
def update_todo (st : AppState) (i : Nat) (u : TodoUpdate) :
    Except ApiError Todo × AppState :=
  match validateUpdate u with
  | .error e => (.error e, st)
  | .ok u' =>
    match st.todos.find? (fun t => t.id == i) with
    | none => (.error .notFound, st)
    | some t =>
      let t' := applyUpdateData t u' st.now
      (.ok t', { st with todos := replaceFirst st.todos (fun x => x.id == i) t' })

/-- `DELETE /todos/{id}`: look the record up (404 before any mutation), then
`todos_storage.remove(todo_to_delete)` — remove the first element *equal* to
the found record. -/
def delete_todo (st : AppState) (i : Nat) : Except ApiError Unit × AppState :=
  match st.todos.find? (fun t => t.id == i) with
  | none => (.error .notFound, st)
  | some t => (.ok (), { st with todos := st.todos.erase t })

/-- `PATCH /todos/{id}/toggle`: look the record up (404 before any mutation),
flip `completed` with Python `not`, stamp `updated_at`. -/
def toggle_todo_completion (st : AppState) (i : Nat) :
    Except ApiError Todo × AppState :=
  match st.todos.find? (fun t => t.id == i) with
  | none => (.error .notFound, st)
  | some t =>
    let t' := { t with completed := some (pyNot t.completed), updatedAt := some st.now }
    (.ok t', { st with todos := replaceFirst st.todos (fun x => x.id == i) t' })

/-- One mutating request against the service. -/
inductive Op where
  | create (c : TodoCreate)
  | update (i : Nat) (u : TodoUpdate)
  | delete (i : Nat)
  | toggle (i : Nat)
deriving DecidableEq, Repr

/-- The outcome (possibly an error) and the post-request state of one
mutating request. -/
def runOp (st : AppState) (op : Op) : Except ApiError Unit × AppState :=
  match op with
  | .create c => let (r, st') := create_todo st c; (r.map (fun _ => ()), st')
  | .update i u => let (r, st') := update_todo st i u; (r.map (fun _ => ()), st')
  | .delete i => delete_todo st i
  | .toggle i => let (r, st') := toggle_todo_completion st i; (r.map (fun _ => ()), st')

/-- The state after a request, with the clock ticked (time passes whether or
not the request succeeded). -/
def stepState (st : AppState) (op : Op) : AppState :=
  let st' := (runOp st op).2
  { st' with now := st'.now + 1 }

/-- States reachable from the empty collection by any request sequence. -/
inductive Reachable : AppState → Prop where
  | init : Reachable initState
  | step {st : AppState} (op : Op) : Reachable st → Reachable (stepState st op)

/-- The conjunction of the two filters of `GET /todos` (AND semantics): a
record is kept exactly when it matches every supplied filter field. -/
def matchesFilters (completed : Option Bool) (priority : Option Nat) (t : Todo) : Bool :=
  (match completed with | some c => t.completed == some c | none => true) &&
  (match priority with | some p => t.priority == some p | none => true)

/-- The spec's stored-record invariant on `title` and `priority`: the title is
a present, non-whitespace-only string and the priority a present integer in
`[1,5]`. -/
def StoredTitlePriorityOk (l : List Todo) : Prop :=
  ∀ t ∈ l, (∃ s, t.title = some s ∧ pyStrip s ≠ "") ∧
    (∃ p, t.priority = some p ∧ 1 ≤ p ∧ p ≤ 5)

/-- Mark one id as modified. -/
def setFlag (f : Nat → Bool) (i : Nat) : Nat → Bool :=
  fun j => if j = i then true else f j

/-- Ghost instrumentation for "has this record ever been modified": the flag
of an id is raised exactly when an `update` or `toggle` request against that
id succeeds, which is the specification's notion of a modification. -/
def stepFlags (st : AppState) (f : Nat → Bool) (op : Op) : Nat → Bool :=
  match op with
  | .update i _ => if (runOp st op).1.isOk then setFlag f i else f
  | .toggle i => if (runOp st op).1.isOk then setFlag f i else f
  | _ => f

/-- Reachability instrumented with the modification flags: initially no id is
modified, and each request updates state and flags in lockstep. -/
inductive ReachableF : AppState → (Nat → Bool) → Prop where
  | init : ReachableF initState (fun _ => false)
  | step {st : AppState} {f : Nat → Bool} (op : Op) :
      ReachableF st f → ReachableF (stepState st op) (stepFlags st f op)

/-- Auxiliary invariant tying the state to the modification flags: every
stored id is below the id counter and has `updated_at` present exactly when
its flag is raised; ids at or above the counter are unflagged and stored ids
are pairwise distinct. -/
def FlagInv (st : AppState) (f : Nat → Bool) : Prop :=
  (∀ t ∈ st.todos, t.id < st.nextId ∧ t.updatedAt.isSome = f t.id) ∧
  (∀ j, st.nextId ≤ j → f j = false) ∧
  (st.todos.map Todo.id).Nodup

/-- A 200-character title, for the validation boundary checks. -/
def a200 : String := String.mk (List.replicate 200 'a')

/-- A 201-character title, for the validation boundary checks. -/
def a201 : String := String.mk (List.replicate 201 'a')

/-- A well-formed create body (title `"Task"`, priority 3). -/
def c0 : TodoCreate := { title := "Task", priority := 3 }

/-- An update body whose `title` is *explicitly* JSON `null` (set, with value
`null`); `TodoUpdate` accepts it because `title` is declared `str | None`. -/
def u0 : TodoUpdate := { title := some none }

/-- The state after creating `c0` from the empty collection. -/
def st1 : AppState := stepState initState (.create c0)

/-- The state after additionally updating record 0 with the explicit-`null`
title body `u0`. -/
def bugState : AppState := stepState st1 (.update 0 u0)

/-- An update body whose `completed` is explicitly JSON `null`. -/
def u1 : TodoUpdate := { completed := some none }

/-- The state after creating `c0` and updating record 0 with the
explicit-`null` completed body `u1`: record 0 now has `completed = None`. -/
def cex5State : AppState := stepState (stepState initState (.create c0)) (.update 0 u1)

/-- The record stored by creating `c0` from the empty collection. -/
def t0 : Todo :=
  { id := 0, title := some "Task", description := none, priority := some 3,
    completed := some false, createdAt := 0, updatedAt := none }

/-- An update body that only sets `completed` to `true`. -/
def uTog : TodoUpdate := { completed := some (some true) }

/-- The record after applying `uTog` to `t0` at time 1. -/
def rTog : Todo := { t0 with completed := some true, updatedAt := some 1 }

/-- The post-update state of applying `uTog` to `st1`. -/
def stTog : AppState := ⟨[rTog], 1, 1⟩

/-! ## Helper lemmas -/

theorem replaceFirst_cons (y : Todo) (ys : List Todo) (p : Todo → Bool) (t' : Todo) :
    replaceFirst (y :: ys) p t' = if p y then t' :: ys else y :: replaceFirst ys p t' := rfl

theorem mem_replaceFirst {l : List Todo} {p : Todo → Bool} {t' x : Todo}
    (hx : x ∈ replaceFirst l p t') : x = t' ∨ x ∈ l := by
  induction l with
  | nil => simp [replaceFirst] at hx
  | cons y ys ih =>
    rw [replaceFirst_cons] at hx
    split at hx
    · rcases List.mem_cons.mp hx with h | h
      · exact Or.inl h
      · exact Or.inr (List.mem_cons_of_mem _ h)
    · rcases List.mem_cons.mp hx with h | h
      · exact Or.inr (h ▸ List.mem_cons_self _ _)
      · rcases ih h with h' | h'
        · exact Or.inl h'
        · exact Or.inr (List.mem_cons_of_mem _ h')

theorem mem_replaceFirst_of_neg {l : List Todo} {p : Todo → Bool} {t' x : Todo}
    (hx : x ∈ l) (hpx : p x = false) : x ∈ replaceFirst l p t' := by
  induction l with
  | nil => simp at hx
  | cons y ys ih =>
    rw [replaceFirst_cons]
    rcases List.mem_cons.mp hx with h | h
    · subst h
      rw [hpx]
      simp
    · split
      · exact List.mem_cons_of_mem _ h
      · exact List.mem_cons_of_mem _ (ih h)

theorem map_id_replaceFirst {l : List Todo} {i : Nat} {t' : Todo} (ht' : t'.id = i) :
    (replaceFirst l (fun x => x.id == i) t').map Todo.id = l.map Todo.id := by
  induction l with
  | nil => rfl
  | cons y ys ih =>
    rw [replaceFirst_cons]
    split
    · rename_i hy
      have hy' : y.id = i := by simpa using hy
      simp only [List.map_cons]
      rw [ht', hy']
    · simp only [List.map_cons, ih]

theorem find?_replaceFirst {l : List Todo} {i : Nat} {t t' : Todo}
    (h : l.find? (fun x => x.id == i) = some t) (ht' : (t'.id == i) = true) :
    (replaceFirst l (fun x => x.id == i) t').find? (fun x => x.id == i) = some t' := by
  induction l with
  | nil => simp at h
  | cons y ys ih =>
    rw [replaceFirst_cons]
    by_cases hy : (y.id == i) = true
    · rw [if_pos hy]
      exact List.find?_cons_of_pos _ ht'
    · rw [if_neg hy]
      rw [List.find?_cons_of_neg _ (by simpa using hy)] at h
      rw [List.find?_cons_of_neg _ (by simpa using hy)]
      exact ih h

theorem stepState_todos (st : AppState) (op : Op) :
    (stepState st op).todos = (runOp st op).2.todos := rfl

theorem stepState_nextId (st : AppState) (op : Op) :
    (stepState st op).nextId = (runOp st op).2.nextId := rfl

/-! ## Claim theorems -/

/-- C6: for every collection state, `Stats` reports `total_todos` equal to the
collection's size, and `total_todos = completed_todos + pending_todos`.
`get_todo_stats` is a total function, so `Stats` never errors. -/
theorem claim6_stats_totals (l : List Todo) :
    (get_todo_stats l).lookup "total_todos" = some l.length ∧
    ∃ c p, (get_todo_stats l).lookup "completed_todos" = some c ∧
      (get_todo_stats l).lookup "pending_todos" = some p ∧
      l.length = c + p := by
  refine ⟨rfl, (l.filter (fun t => t.completed == some true)).length,
    l.length - (l.filter (fun t => t.completed == some true)).length, rfl, rfl, ?_⟩
  exact (Nat.add_sub_cancel' (List.length_filter_le _ l)).symm

/-- C1 (counterexample): the claim says a `priority_N` key appears in the
`Stats` output exactly when at least one stored todo has priority `N`.  On
the empty collection (the initial state) no record has priority 1, yet the
output still contains the key `priority_1` (with value 0): the code emits all
five keys unconditionally, so the claimed sparseness is false. -/
theorem claim1_counterexample :
    ¬ (∀ n, 1 ≤ n → n ≤ 5 →
        ((((get_todo_stats initState.todos).lookup ("priority_" ++ toString n)).isSome) ↔
          ∃ t ∈ initState.todos, t.priority = some n)) := by
  intro h
  rcases (h 1 (by decide) (by decide)).mp (by rfl) with ⟨t, ht, -⟩
  simp [initState] at ht

/-- C1 (amended): for every collection state and every priority level `N` in
`[1,5]`, the `Stats` output contains the key `priority_N`, mapped to the
number of stored todos with priority `N` — including the levels whose count
is zero (no key is omitted). -/
theorem claim1_stats_priority_keys (l : List Todo) (n : Nat) (h1 : 1 ≤ n) (h2 : n ≤ 5) :
    (get_todo_stats l).lookup ("priority_" ++ toString n) =
      some ((l.filter (fun t => t.priority == some n)).length) := by
  interval_cases n <;> rfl

/-- C1 (witness for the amended theorem). -/
theorem claim1_witness :
    (get_todo_stats []).lookup ("priority_" ++ toString 2) =
      some ((([] : List Todo).filter (fun t => t.priority == some 2)).length) :=
  claim1_stats_priority_keys [] 2 (by decide) (by decide)

/-- C7: `Create` accepts a title of exactly 200 characters and rejects one of
201 characters with a `ValidationError`; it rejects priority 0 and 6 with a
`ValidationError` and accepts priority 1 and 5. -/
theorem claim7_validation_boundaries :
    (create_todo initState { title := a200 }).1.isOk = true ∧
    (create_todo initState { title := a201 }).1 = .error .validation ∧
    (create_todo initState { title := "ok", priority := 0 }).1 = .error .validation ∧
    (create_todo initState { title := "ok", priority := 6 }).1 = .error .validation ∧
    (create_todo initState { title := "ok", priority := 1 }).1.isOk = true ∧
    (create_todo initState { title := "ok", priority := 5 }).1.isOk = true := by
  refine ⟨?_, ?_, by decide, by decide, by decide, by decide⟩
  · set_option maxRecDepth 8000 in decide
  · set_option maxRecDepth 8000 in decide

/-- C10: when a create body's title is non-blank after stripping (and the
body is otherwise valid), creation succeeds and the record that is stored
(appended) and returned carries the *stripped* title, not the raw input. -/
theorem claim10_title_stripped (st : AppState) (c : TodoCreate)
    (h1 : pyStrip c.title ≠ "") (h2 : pyLen c.title ≤ 200)
    (h3 : ∀ d, c.description = some d → pyLen d ≤ 1000)
    (h4 : 1 ≤ c.priority) (h5 : c.priority ≤ 5) :
    ∃ r, create_todo st c =
        (.ok r, { st with todos := st.todos ++ [r], nextId := st.nextId + 1 }) ∧
      r.title = some (pyStrip c.title) := by
  have hlen : 1 ≤ pyLen c.title := by
    by_contra h
    apply h1
    have hd : c.title.data = [] := List.eq_nil_of_length_eq_zero (by unfold pyLen at h; omega)
    unfold pyStrip
    rw [hd]
    rfl
  have hD : c.description.any (fun d => 1000 < pyLen d) = false := by
    cases hd : c.description with
    | none => rfl
    | some d =>
      simp only [Option.any_some, decide_eq_false_iff_not, not_lt]
      exact h3 d hd
  refine ⟨{ id := st.nextId, title := some (pyStrip c.title), description := c.description,
            priority := some c.priority, completed := some c.completed, createdAt := st.now,
            updatedAt := none }, ?_, rfl⟩
  unfold create_todo validateCreate
  rw [if_neg (by omega), if_neg (by omega), if_neg h1, if_neg (by simp [hD]),
    if_neg (by omega), if_neg (by omega)]

/-- C10 (witness). -/
theorem claim10_witness :
    ∃ r, create_todo initState { title := "  hello  ", priority := 2 } =
        (.ok r,
          { initState with todos := initState.todos ++ [r], nextId := initState.nextId + 1 }) ∧
      r.title = some (pyStrip "  hello  ") :=
  claim10_title_stripped initState { title := "  hello  ", priority := 2 }
    (by decide) (by decide) (fun d hd => Option.noConfusion hd) (by decide) (by decide)

/-- C4: `List` first keeps exactly the todos matching all supplied filter
fields (AND semantics, preserving insertion order), then returns the slice
`[skip, skip+limit)` of the filtered sequence, whose size is
`max 0 (min L (N − S))` for filtered size `N`.  `get_todos` is a total
function, so an empty result is returned without error. -/
theorem claim4_list_filter_pagination (todos : List Todo) (c? : Option Bool)
    (p? : Option Nat) (L S : Nat) (hL1 : 1 ≤ L) (hL2 : L ≤ 100) :
    get_todos todos c? p? L S = ((todos.filter (matchesFilters c? p?)).drop S).take L ∧
    ((get_todos todos c? p? L S).length : Int) =
      max 0 (min (L : Int) (((todos.filter (matchesFilters c? p?)).length : Int) - (S : Int))) := by
  have hslice : (S + L) - S = L := by omega
  have h1 : get_todos todos c? p? L S =
      ((todos.filter (matchesFilters c? p?)).drop S).take L := by
    unfold get_todos
    rw [hslice]
    cases c? with
    | none =>
      cases p? with
      | none => simp [show matchesFilters none none = fun _ : Todo => true && true from rfl]
      | some p =>
        simp [show matchesFilters none (some p) =
          fun t : Todo => true && (t.priority == some p) from rfl]
    | some c =>
      cases p? with
      | none =>
        simp [show matchesFilters (some c) none =
          fun t : Todo => (t.completed == some c) && true from rfl]
      | some p =>
        simp [List.filter_filter, Bool.and_comm,
          show matchesFilters (some c) (some p) =
            fun t : Todo => (t.completed == some c) && (t.priority == some p) from rfl]
  refine ⟨h1, ?_⟩
  rw [h1, List.length_take, List.length_drop]
  omega

/-- C4 (witness). -/
theorem claim4_witness :
    get_todos [] none none 1 0 = ((([] : List Todo).filter (matchesFilters none none)).drop 0).take 1 ∧
    ((get_todos [] none none 1 0).length : Int) =
      max 0 (min (1 : Int) (((([] : List Todo).filter (matchesFilters none none)).length : Int) - (0 : Int))) :=
  claim4_list_filter_pagination [] none none 1 0 (by decide) (by decide)

/-- `toggle_todo_completion` on a state whose lookup succeeds: the found
record is flipped and stamped, in place. -/
theorem toggle_ok {st : AppState} {i : Nat} {t : Todo}
    (hfind : st.todos.find? (fun x => x.id == i) = some t) :
    toggle_todo_completion st i =
      (.ok { t with completed := some (pyNot t.completed), updatedAt := some st.now },
       { st with todos := replaceFirst st.todos (fun x => x.id == i)
                   { t with completed := some (pyNot t.completed), updatedAt := some st.now } }) := by
  unfold toggle_todo_completion
  rw [hfind]

/-- C5: toggling a present record twice in a row succeeds both times and
returns its `completed` attribute to the value it had before the first
toggle, provided that value was an actual boolean (`True`/`False`, the only
values the data model admits; a record corrupted to `completed = None` by the
unvalidated update path is flipped to `True` and then to `False`). -/
theorem claim5_toggle_involution (st : AppState) (i : Nat) (t : Todo) (b : Bool)
    (hfind : st.todos.find? (fun x => x.id == i) = some t)
    (hb : t.completed = some b) :
    (runOp st (.toggle i)).1 = .ok () ∧
    (runOp (stepState st (.toggle i)) (.toggle i)).1 = .ok () ∧
    ∃ t2, (stepState (stepState st (.toggle i)) (.toggle i)).todos.find?
        (fun x => x.id == i) = some t2 ∧ t2.completed = t.completed := by
  have hpt := List.find?_some hfind
  have h1 := toggle_ok hfind
  have hr1 : runOp st (.toggle i) =
      (.ok (), (toggle_todo_completion st i).2) := by
    simp [runOp, h1, Except.map]
  have hs1 : (stepState st (.toggle i)).todos =
      replaceFirst st.todos (fun x => x.id == i)
        { t with completed := some (pyNot t.completed), updatedAt := some st.now } := by
    rw [stepState_todos, hr1, h1]
  have hfind1 : (stepState st (.toggle i)).todos.find? (fun x => x.id == i) =
      some { t with completed := some (pyNot t.completed), updatedAt := some st.now } := by
    rw [hs1]
    exact find?_replaceFirst hfind hpt
  have h2 := toggle_ok hfind1
  have hr2 : runOp (stepState st (.toggle i)) (.toggle i) =
      (.ok (), (toggle_todo_completion (stepState st (.toggle i)) i).2) := by
    simp [runOp, h2, Except.map]
  refine ⟨by rw [hr1], by rw [hr2],
    ⟨{ t with completed := some (pyNot (some (pyNot t.completed))),
              updatedAt := some (stepState st (.toggle i)).now }, ?_, ?_⟩⟩
  · rw [stepState_todos, hr2, h2]
    exact find?_replaceFirst hfind1 hpt
  · simp [hb, pyNot]

/-- C5 (witness): a record created completed-`false`, toggled twice, reports
`completed = false` again. -/
theorem claim5_witness :
    (runOp st1 (.toggle 0)).1 = .ok () ∧
    (runOp (stepState st1 (.toggle 0)) (.toggle 0)).1 = .ok () ∧
    ∃ t2, (stepState (stepState st1 (.toggle 0)) (.toggle 0)).todos.find?
        (fun x => x.id == 0) = some t2 ∧
      t2.completed = Todo.completed
        { id := 0, title := some "Task", description := none, priority := some 3,
          completed := some false, createdAt := 0, updatedAt := none } :=
  claim5_toggle_involution st1 0
    { id := 0, title := some "Task", description := none, priority := some 3,
      completed := some false, createdAt := 0, updatedAt := none } false rfl rfl

/-- C5 (counterexample): the claim quantifies over *every* record present in
the collection, but a record whose `completed` was corrupted to `None` (by a
`PUT` body with an explicit `"completed": null`, accepted and assigned
unvalidated) is *not* restored by two toggles: Python evaluates
`not None = True`, then `not True = False`, so `completed` ends up `False`
although it was `None` before the first toggle. -/
theorem claim5_counterexample :
    ∃ t, cex5State.todos.find? (fun x => x.id == 0) = some t ∧ t.completed = none ∧
      ∃ t2, (stepState (stepState cex5State (.toggle 0)) (.toggle 0)).todos.find?
          (fun x => x.id == 0) = some t2 ∧ t2.completed = some false ∧
        t2.completed ≠ t.completed := by
  refine ⟨{ id := 0, title := some "Task", description := none, priority := some 3,
            completed := none, createdAt := 0, updatedAt := some 1 }, by decide, rfl,
          { id := 0, title := some "Task", description := none, priority := some 3,
            completed := some false, createdAt := 0, updatedAt := some 3 }, by decide, rfl,
          by decide⟩

theorem replaceFirst_length (l : List Todo) (p : Todo → Bool) (t' : Todo) :
    (replaceFirst l p t').length = l.length := by
  induction l with
  | nil => rfl
  | cons y ys ih =>
    rw [replaceFirst_cons]
    split <;> simp [ih]

/-- A validated update body keeps every field's set/unset status and every
field other than `title` verbatim (`title`, when set to a string, is
stripped; when unset or set to `null` it is unchanged). -/
theorem validateUpdate_ok_fields {u u' : TodoUpdate} (h : validateUpdate u = .ok u') :
    (u.title = none → u'.title = none) ∧ u'.description = u.description ∧
    u'.priority = u.priority ∧ u'.completed = u.completed := by
  have hrest : ∀ v : TodoUpdate, validateUpdate.validateUpdateRest v = .ok u' → u' = v := by
    intro v hv
    unfold validateUpdate.validateUpdateRest at hv
    split at hv
    · exact absurd hv (by simp)
    · split at hv
      · exact absurd hv (by simp)
      · exact (Except.ok.inj hv).symm
  unfold validateUpdate at h
  split at h
  · rename_i s hs
    split at h
    · exact absurd h (by simp)
    · split at h
      · exact absurd h (by simp)
      · split at h
        · exact absurd h (by simp)
        · have := hrest _ h
          subst this
          refine ⟨fun hn => ?_, rfl, rfl, rfl⟩
          rw [hs] at hn
          exact Option.noConfusion hn
  · have := hrest _ h
    subst this
    exact ⟨fun hn => hn, rfl, rfl, rfl⟩

/-- C3: a successful partial update changes only the fields explicitly
present in the body: every omitted field keeps its pre-update value, the id
and creation timestamp are untouched, `updated_at` is set to the current time
(hence non-null) whatever the supplied values are, and every other record of
the collection survives unchanged (same collection size). -/
theorem claim3_partial_update_frame (st : AppState) (i : Nat) (u : TodoUpdate)
    (r : Todo) (st' : AppState) (t : Todo)
    (hok : update_todo st i u = (.ok r, st'))
    (hfind : st.todos.find? (fun x => x.id == i) = some t) :
    (u.title = none → r.title = t.title) ∧
    (u.description = none → r.description = t.description) ∧
    (u.priority = none → r.priority = t.priority) ∧
    (u.completed = none → r.completed = t.completed) ∧
    r.id = t.id ∧ r.createdAt = t.createdAt ∧ r.updatedAt = some st.now ∧
    st'.todos.length = st.todos.length ∧
    (∀ x ∈ st.todos, (x.id == i) = false → x ∈ st'.todos) := by
  unfold update_todo at hok
  split at hok
  · exact absurd (congrArg Prod.fst hok) (by simp)
  · rename_i u' hv
    split at hok
    · exact absurd (congrArg Prod.fst hok) (by simp)
    · rename_i t₂ hfind₂
      rw [hfind] at hfind₂
      obtain rfl : t = t₂ := Option.some.inj hfind₂
      have hfields := validateUpdate_ok_fields hv
      have hr : r = applyUpdateData t u' st.now :=
        (Except.ok.inj (congrArg Prod.fst hok)).symm
      have hst : st' = { st with
          todos := replaceFirst st.todos (fun x => x.id == i) (applyUpdateData t u' st.now) } :=
        (congrArg Prod.snd hok).symm
      subst hr
      subst hst
      refine ⟨?_, ?_, ?_, ?_, rfl, rfl, rfl, replaceFirst_length _ _ _, ?_⟩
      · intro hn
        show (u'.title.getD t.title) = t.title
        rw [hfields.1 hn]
        rfl
      · intro hn
        show (u'.description.getD t.description) = t.description
        rw [hfields.2.1, hn]
        rfl
      · intro hn
        show (u'.priority.getD t.priority) = t.priority
        rw [hfields.2.2.1, hn]
        rfl
      · intro hn
        show (u'.completed.getD t.completed) = t.completed
        rw [hfields.2.2.2, hn]
        rfl
      · intro x hx hxid
        exact mem_replaceFirst_of_neg hx hxid

/-- C3 (witness): updating only `completed` on the single created record. -/
theorem claim3_witness :
    (uTog.title = none → rTog.title = t0.title) ∧
    (uTog.description = none → rTog.description = t0.description) ∧
    (uTog.priority = none → rTog.priority = t0.priority) ∧
    (uTog.completed = none → rTog.completed = t0.completed) ∧
    rTog.id = t0.id ∧ rTog.createdAt = t0.createdAt ∧ rTog.updatedAt = some st1.now ∧
    stTog.todos.length = st1.todos.length ∧
    (∀ x ∈ st1.todos, (x.id == 0) = false → x ∈ stTog.todos) :=
  claim3_partial_update_frame st1 0 uTog rTog stTog t0 (by decide) (by decide)

/-- C8: whenever an operation fails (validation error or not-found), the
collection is left exactly as it was: no partial mutation is observable. -/
theorem claim8_failed_op_no_mutation (st : AppState) (op : Op) (e : ApiError)
    (h : (runOp st op).1 = .error e) :
    (runOp st op).2 = st ∧ (stepState st op).todos = st.todos := by
  have main : (runOp st op).2 = st := by
    cases op with
    | create c =>
      cases hv : validateCreate c with
      | error e' => simp [runOp, create_todo, hv]
      | ok c' => simp [runOp, create_todo, hv, Except.map] at h
    | update i u =>
      cases hv : validateUpdate u with
      | error e' => simp [runOp, update_todo, hv]
      | ok u' =>
        cases hf : st.todos.find? (fun x => x.id == i) with
        | none => simp [runOp, update_todo, hv, hf]
        | some t => simp [runOp, update_todo, hv, hf, Except.map] at h
    | delete i =>
      cases hf : st.todos.find? (fun x => x.id == i) with
      | none => simp [runOp, delete_todo, hf]
      | some t => simp [runOp, delete_todo, hf] at h
    | toggle i =>
      cases hf : st.todos.find? (fun x => x.id == i) with
      | none => simp [runOp, toggle_todo_completion, hf]
      | some t => simp [runOp, toggle_todo_completion, hf, Except.map] at h
  exact ⟨main, by rw [stepState_todos, main]⟩

/-- C8 (witness): toggling a missing id fails with not-found and leaves the
empty collection empty. -/
theorem claim8_witness :
    (runOp initState (.toggle 0)).1 = .error .notFound ∧
    (runOp initState (.toggle 0)).2 = initState ∧
    (stepState initState (.toggle 0)).todos = initState.todos :=
  ⟨by decide, claim8_failed_op_no_mutation initState (.toggle 0) .notFound (by decide)⟩

/-- C2 (code bug): the claimed invariant — every stored record keeps a
non-blank title and a priority in `[1,5]` — is broken by the code.  From the
empty collection, create a valid record, then send `PUT` with the body
`{"title": null}`: `TodoUpdate` accepts the explicit `null` (its `title` is
declared `str | None`), `model_dump(exclude_unset=True)` keeps it, and the
unvalidated `setattr` stores `None` as the record's title.  The update
reports success and the reachable state `bugState` holds a record with no
title at all, contradicting the code's own declared field types
(`title: str`, `min_length=1`) and its `response_model=Todo` contract. -/
theorem claim2_title_invariant_bug :
    Reachable bugState ∧
    (runOp st1 (.update 0 u0)).1 = .ok () ∧
    bugState.todos.map Todo.title = [none] ∧
    ¬ StoredTitlePriorityOk bugState.todos := by
  refine ⟨Reachable.step _ (Reachable.step _ Reachable.init), by decide, by decide, ?_⟩
  intro h
  have hb := h { id := 0, title := none, description := none, priority := some 3,
                 completed := some false, createdAt := 0, updatedAt := some 1 } (by decide)
  rcases hb.1 with ⟨s, hs, -⟩
  exact Option.noConfusion hs

/-- Replacing the record found by an id lookup with one of equal id and a
present `updated_at` keeps the per-record flag correspondence, now against
the flags with that id raised. -/
theorem replaceFirst_flag_inv {l : List Todo} {f : Nat → Bool} {i : Nat} {t t' : Todo}
    (hn : (l.map Todo.id).Nodup)
    (hf : ∀ x ∈ l, x.updatedAt.isSome = f x.id)
    (h : l.find? (fun x => x.id == i) = some t)
    (hid : t'.id = i) (hupd : t'.updatedAt.isSome = true) :
    ∀ x ∈ replaceFirst l (fun x => x.id == i) t',
      x.updatedAt.isSome = setFlag f i x.id := by
  induction l with
  | nil => intro x hx; simp [replaceFirst] at hx
  | cons y ys ih =>
    rw [replaceFirst_cons]
    rw [List.map_cons, List.nodup_cons] at hn
    by_cases hy : (y.id == i) = true
    · rw [if_pos hy]
      intro x hx
      rcases List.mem_cons.mp hx with rfl | hx'
      · rw [hupd, hid, setFlag]
        simp
      · have hyid : y.id = i := by simpa using hy
        have hxid : x.id ≠ i := by
          intro hxi
          exact hn.1 (by rw [hyid, ← hxi]; exact List.mem_map_of_mem _ hx')
        rw [setFlag]
        simp only [if_neg hxid]
        exact hf x (List.mem_cons_of_mem _ hx')
    · rw [if_neg hy]
      intro x hx
      have hy' : ¬ ((fun x : Todo => x.id == i) y = true) := hy
      rcases List.mem_cons.mp hx with rfl | hx'
      · have hxid : x.id ≠ i := by simpa using hy
        rw [setFlag]
        simp only [if_neg hxid]
        exact hf x (List.mem_cons_self _ _)
      · rw [List.find?_cons_of_neg (p := fun x : Todo => x.id == i) ys hy'] at h
        exact ih hn.2 (fun z hz => hf z (List.mem_cons_of_mem _ hz)) h x hx'

/-- Replacing the looked-up record by one with the same id and a stamped
`updated_at` preserves the flag invariant with that id marked modified. -/
theorem flagInv_replace {st : AppState} {f : Nat → Bool} {i : Nat} {t t' : Todo}
    (hinv : FlagInv st f)
    (hfind : st.todos.find? (fun x => x.id == i) = some t)
    (hid : t'.id = t.id) (hupd : t'.updatedAt.isSome = true) (n : Nat) :
    FlagInv ⟨replaceFirst st.todos (fun x => x.id == i) t', st.nextId, n⟩ (setFlag f i) := by
  obtain ⟨h1, h2, h3⟩ := hinv
  have htmem : t ∈ st.todos := List.mem_of_find?_eq_some hfind
  have htid : t.id = i := by simpa using List.find?_some hfind
  have hid' : t'.id = i := by rw [hid, htid]
  refine ⟨?_, ?_, ?_⟩
  · intro x hx
    constructor
    · rcases mem_replaceFirst hx with rfl | hx'
      · rw [hid]
        exact (h1 t htmem).1
      · exact (h1 x hx').1
    · exact replaceFirst_flag_inv h3 (fun z hz => (h1 z hz).2) hfind hid' hupd x hx
  · intro j hj
    have hj' : st.nextId ≤ j := hj
    have hji : j ≠ i := by
      have := (h1 t htmem).1
      omega
    rw [setFlag]
    simp only [if_neg hji]
    exact h2 j hj
  · show ((replaceFirst st.todos (fun x => x.id == i) t').map Todo.id).Nodup
    rw [map_id_replaceFirst hid']
    exact h3

/-- One request preserves the flag invariant. -/
theorem flagInv_step {st : AppState} {f : Nat → Bool} (op : Op) (hinv : FlagInv st f) :
    FlagInv (stepState st op) (stepFlags st f op) := by
  obtain ⟨h1, h2, h3⟩ := hinv
  cases op with
  | create c =>
    cases hv : validateCreate c with
    | error e =>
      have hT : (stepState st (.create c)).todos = st.todos := by
        simp [stepState_todos, runOp, create_todo, hv]
      have hN : (stepState st (.create c)).nextId = st.nextId := by
        simp [stepState_nextId, runOp, create_todo, hv]
      refine ⟨?_, ?_, ?_⟩
      · intro x hx
        rw [hT] at hx
        rw [hN]
        exact h1 x hx
      · intro j hj
        rw [hN] at hj
        exact h2 j hj
      · rw [hT]
        exact h3
    | ok c' =>
      have hT : (stepState st (.create c)).todos = st.todos ++
          [{ id := st.nextId, title := some c'.title, description := c'.description,
             priority := some c'.priority, completed := some c'.completed,
             createdAt := st.now, updatedAt := none }] := by
        simp [stepState_todos, runOp, create_todo, hv]
      have hN : (stepState st (.create c)).nextId = st.nextId + 1 := by
        simp [stepState_nextId, runOp, create_todo, hv]
      refine ⟨?_, ?_, ?_⟩
      · intro x hx
        rw [hT] at hx
        rw [hN]
        rcases List.mem_append.mp hx with hx' | hx'
        · obtain ⟨ha, hb⟩ := h1 x hx'
          exact ⟨by omega, hb⟩
        · obtain rfl := List.mem_singleton.mp hx'
          exact ⟨Nat.lt_succ_self _, by simpa using (h2 st.nextId (Nat.le_refl _)).symm⟩
      · intro j hj
        rw [hN] at hj
        exact h2 j (by omega)
      · rw [hT, List.map_append, List.nodup_append]
        refine ⟨h3, List.nodup_singleton _, ?_⟩
        intro a ha hb
        simp only [List.map_cons, List.map_nil, List.mem_singleton] at hb
        rcases List.mem_map.mp ha with ⟨x, hx, rfl⟩
        have := (h1 x hx).1
        omega
  | update i u =>
    cases hv : validateUpdate u with
    | error e =>
      have hS : stepState st (.update i u) = { st with now := st.now + 1 } := by
        simp [stepState, runOp, update_todo, hv]
      have hF : stepFlags st f (.update i u) = f := by
        simp [stepFlags, runOp, update_todo, hv, Except.isOk, Except.toBool, Except.map]
      rw [hS, hF]
      exact ⟨h1, h2, h3⟩
    | ok u' =>
      cases hf : st.todos.find? (fun x => x.id == i) with
      | none =>
        have hS : stepState st (.update i u) = { st with now := st.now + 1 } := by
          simp [stepState, runOp, update_todo, hv, hf]
        have hF : stepFlags st f (.update i u) = f := by
          simp [stepFlags, runOp, update_todo, hv, hf, Except.isOk, Except.toBool, Except.map]
        rw [hS, hF]
        exact ⟨h1, h2, h3⟩
      | some t =>
        have hS : stepState st (.update i u) =
            ⟨replaceFirst st.todos (fun x => x.id == i) (applyUpdateData t u' st.now),
             st.nextId, st.now + 1⟩ := by
          simp [stepState, runOp, update_todo, hv, hf]
        have hF : stepFlags st f (.update i u) = setFlag f i := by
          simp [stepFlags, runOp, update_todo, hv, hf, Except.map, Except.isOk, Except.toBool, Except.map]
        rw [hS, hF]
        exact flagInv_replace ⟨h1, h2, h3⟩ hf (by rfl) (by rfl) _
  | delete i =>
    cases hf : st.todos.find? (fun x => x.id == i) with
    | none =>
      have hS : stepState st (.delete i) = { st with now := st.now + 1 } := by
        simp [stepState, runOp, delete_todo, hf]
      rw [hS]
      exact ⟨h1, h2, h3⟩
    | some t =>
      have hS : stepState st (.delete i) =
          ⟨st.todos.erase t, st.nextId, st.now + 1⟩ := by
        simp [stepState, runOp, delete_todo, hf]
      rw [hS]
      refine ⟨?_, h2, ?_⟩
      · intro x hx
        exact h1 x ((List.erase_sublist t st.todos).subset hx)
      · exact h3.sublist ((List.erase_sublist t st.todos).map Todo.id)
  | toggle i =>
    cases hf : st.todos.find? (fun x => x.id == i) with
    | none =>
      have hS : stepState st (.toggle i) = { st with now := st.now + 1 } := by
        simp [stepState, runOp, toggle_todo_completion, hf]
      have hF : stepFlags st f (.toggle i) = f := by
        simp [stepFlags, runOp, toggle_todo_completion, hf, Except.isOk, Except.toBool, Except.map]
      rw [hS, hF]
      exact ⟨h1, h2, h3⟩
    | some t =>
      have hS : stepState st (.toggle i) =
          ⟨replaceFirst st.todos (fun x => x.id == i)
             { t with completed := some (pyNot t.completed), updatedAt := some st.now },
           st.nextId, st.now + 1⟩ := by
        simp [stepState, runOp, toggle_todo_completion, hf]
      have hF : stepFlags st f (.toggle i) = setFlag f i := by
        simp [stepFlags, runOp, toggle_todo_completion, hf, Except.map, Except.isOk, Except.toBool, Except.map]
      rw [hS, hF]
      exact flagInv_replace ⟨h1, h2, h3⟩ hf (by rfl) (by rfl) _

/-- Every instrumented reachable state satisfies the flag invariant. -/
theorem flagInv_reachable {st : AppState} {f : Nat → Bool}
    (h : ReachableF st f) : FlagInv st f := by
  induction h with
  | init =>
    refine ⟨?_, fun j _ => rfl, ?_⟩
    · intro t ht
      simp [initState] at ht
    · simp [initState]
  | step op _ ih => exact flagInv_step op ih

/-- C9: in every reachable state, a stored record's `updated_at` is null
exactly when its id was never the target of a successful update or toggle
since its creation (the ghost modification flags of `ReachableF` record
precisely those events); moreover `Create` stores `updated_at = None` and
every successful `Update` or `Toggle` stamps the returned record's
`updated_at` with the current (mutation) time. -/
theorem claim9_updated_at_iff_modified :
    (∀ st f, ReachableF st f → ∀ t ∈ st.todos, (t.updatedAt = none ↔ f t.id = false)) ∧
    (∀ st c r st', create_todo st c = (.ok r, st') → r.updatedAt = none) ∧
    (∀ st i u r st', update_todo st i u = (.ok r, st') → r.updatedAt = some st.now) ∧
    (∀ st i r st', toggle_todo_completion st i = (.ok r, st') → r.updatedAt = some st.now) := by
  refine ⟨?_, ?_, ?_, ?_⟩
  · intro st f h t ht
    have hiff := ((flagInv_reachable h).1 t ht).2
    constructor
    · intro hn
      rw [hn] at hiff
      exact hiff.symm
    · intro hf
      rw [hf] at hiff
      cases h' : t.updatedAt with
      | none => rfl
      | some v =>
        rw [h'] at hiff
        exact absurd hiff (by simp)
  · intro st c r st' h
    unfold create_todo at h
    split at h
    · exact absurd (congrArg Prod.fst h) (by simp)
    · have hr := Except.ok.inj (congrArg Prod.fst h)
      rw [← hr]
  · intro st i u r st' h
    unfold update_todo at h
    split at h
    · exact absurd (congrArg Prod.fst h) (by simp)
    · split at h
      · exact absurd (congrArg Prod.fst h) (by simp)
      · have hr := Except.ok.inj (congrArg Prod.fst h)
        rw [← hr]
        rfl
  · intro st i r st' h
    unfold toggle_todo_completion at h
    split at h
    · exact absurd (congrArg Prod.fst h) (by simp)
    · have hr := Except.ok.inj (congrArg Prod.fst h)
      rw [← hr]

/-- C9 (witness): the record created by `c0` is unmodified and its
`updated_at` is null; creation itself returned it with `updated_at = None`. -/
theorem claim9_witness :
    (Todo.updatedAt t0 = none ↔ stepFlags initState (fun _ => false) (Op.create c0) t0.id = false) ∧
    Todo.updatedAt t0 = none :=
  ⟨claim9_updated_at_iff_modified.1 st1 (stepFlags initState (fun _ => false) (Op.create c0))
      (ReachableF.step (Op.create c0) ReachableF.init) t0 (by decide),
   claim9_updated_at_iff_modified.2.1 initState c0 t0 ⟨[t0], 1, 0⟩ (by decide)⟩

end FastAPITodo
